import Mathlib

/-!
Shallow embedding of the `cpsmainwindow` repository (Python, PySide2).

Embedded modules:
* `src/cpsmainwindow/recent_files.py` — class `RecentlyOpenedFiles` and the
  module-level helper `shorten_name`.
* `src/cpsmainwindow/classic_mainwindow.py` — class `ClassicFileMainWindow`
  (document lifecycle controller) and the helper `request`.

Modelling conventions:
* Python `str` is modelled as `String`; where character-slice arithmetic
  matters (`shorten_name`) the string is a `List Char`.
* The Qt settings store (`QSettings`) is modelled as the single optional value
  held under the key `recent_files_list`: field `settings` of `RecentFiles`.
  `settings = none` means the key is absent.
* Qt widget manipulation (`update_actions`, `set_window_title`, dialog
  geometry) is presentation-layer output with no feedback into the core state
  and is not modelled, except for the enabled state of the Save action, which
  `set_dirty` reads and writes and which claims refer to.
* Calls through the external ports (confirmation message box, content
  callbacks, file dialogs, application exit) are recorded as an `Event` list
  returned alongside the new state, in the order the Python code performs
  them.
* The file system is an association list `List (String × String)`; a read
  takes the most recent write for the path; an absent path is Python's
  `FileNotFoundError`.
* A Python exception that the embedded code does not catch (the `ValueError`
  of `list.remove` on an absent element) is modelled by `ok := false` /
  `Option.none` at the raise point.
-/

namespace Cps

/-- Class attribute `RecentlyOpenedFiles.max_no_files`. -/
def max_no_files : Nat := 10

/-- Class attribute `RecentlyOpenedFiles.max_length`. -/
def max_length : Nat := 40

/-- Class attribute `RecentlyOpenedFiles.remain_start`. -/
def remain_start : Nat := 10

/-- Class attribute `RecentlyOpenedFiles.remain_end`. -/
def remain_end : Nat := 25

/-- Python slice `name[-n:]`: the last `n` characters, except that `n = 0`
gives the whole string (`name[-0:]` is `name[0:]`). -/
def pySliceLast (l : List Char) (n : Nat) : List Char :=
  if n = 0 then l else l.drop (l.length - n)

/-- `shorten_name(name, max_length, remain_start, remain_end)` from
`recent_files.py`: `if len(name) > max_length: return
f'{name[:remain_start]} ... {name[-remain_end:]}'` else `name`. -/
def shorten_name (name : List Char) (maxLen remStart remEnd : Nat) : List Char :=
  if maxLen < name.length then
    name.take remStart ++ " ... ".toList ++ pySliceLast name remEnd
  else
    name

/-- Ordered-set collapse of Python `list(dict.fromkeys(xs))`: keep the first
occurrence of every element, preserving order. `seen` accumulates the keys
already emitted. -/
def dedupAux : List String → List String → List String
  | [], _ => []
  | x :: xs, seen =>
    if x ∈ seen then dedupAux xs seen else x :: dedupAux xs (x :: seen)

/-- `list(dict.fromkeys(xs))`. -/
def dedupKeepFirst (l : List String) : List String :=
  dedupAux l []

/-- State of a `RecentlyOpenedFiles` instance: the in-memory list
`self.filenames` plus the persisted value stored by `QSettings` under the key
`recent_files_list` (`none` when the key is absent). The code always stores
the list wrapped in a one-element list (`[self.filenames]`). -/
structure RecentFiles where
  filenames : List String
  settings : Option (List (List String))
  deriving DecidableEq, Repr

/-- `load_files(self, file_list)`: `self.filenames = file_list[:self.max_no_files]`
(then `update_actions`, presentation-only). -/
def load_files (rf : RecentFiles) (file_list : List String) : RecentFiles :=
  { rf with filenames := file_list.take max_no_files }

/-- `load_files_from_settings(self)`:
`files = self.settings.value('recent_files_list', [[]])[0]` then
`load_files(files)`. The stored value is always a one-element wrapper, so
`[0]` is modelled by `headD []`. -/
def load_files_from_settings (rf : RecentFiles) : RecentFiles :=
  load_files rf ((rf.settings.getD [[]]).headD [])

/-- `clear_settings(self)`: `self.settings.remove('recent_files_list')` then
`load_files_from_settings()` (then `update_actions`, presentation-only). -/
def clear_settings (rf : RecentFiles) : RecentFiles :=
  load_files_from_settings { rf with settings := none }

/-- `add_file(self, filename)`:
`self.filenames.insert(0, filename)`;
`del self.filenames[self.max_no_files:]`;
`self.filenames = list(dict.fromkeys(self.filenames))`;
`self.settings.setValue('recent_files_list', [self.filenames])`
(then `update_actions`). Note the truncation happens before the dedup. -/
def add_file (rf : RecentFiles) (filename : String) : RecentFiles :=
  let fns := filename :: rf.filenames
  let fns := fns.take max_no_files
  let fns := dedupKeepFirst fns
  { filenames := fns, settings := some [fns] }

/-- `remove_file(self, filename)`: `self.filenames.remove(filename)` (then
`update_actions`). Python `list.remove` deletes the first occurrence and
raises `ValueError` when the element is absent; the raise is `none`. The
settings value is not touched. -/
def remove_file (rf : RecentFiles) (filename : String) : Option RecentFiles :=
  if filename ∈ rf.filenames then
    some { rf with filenames := rf.filenames.erase filename }
  else
    none

/-- A sequence of `add_file` calls, first call first. -/
def add_file_seq (rf : RecentFiles) (ps : List String) : RecentFiles :=
  ps.foldl add_file rf

/-- One call to an external port, in program order. -/
inductive Event where
  /-- `request(parent, core_message)` in `classic_mainwindow.py`: the
  confirmation message box; `answer` is the user's reply
  (`reply == QMessageBox.Ok`). -/
  | confirmReq (coreMessage : String) (answer : Bool)
  /-- `run_callback('set_contents', text)`. -/
  | setContents (text : String)
  /-- `run_callback('get_contents')`. -/
  | getContents
  /-- `run_callback('clear_contents')`. -/
  | clearContents
  /-- `self.open_dialog.show_dialog(self.start_path)`: hand control to the
  external file-picking dialog. -/
  | showOpenFileDialog
  /-- `ClassicMainWindow.request_exit`: `self.application.exit(); sys.exit(0)`. -/
  | exitApp
  deriving DecidableEq, Repr

/-- Controller-owned state of a `ClassicFileMainWindow`: `self._filename`,
`self.is_dirty`, the enabled state of `self.save_action`, the
`RecentlyOpenedFiles` instance, the text held by the content port
(`self.callbacks` bound to the editing surface; the callbacks are assumed
configured, since an unbound callback raises `CallbackException`), and
`self.app_name`. -/
structure MW where
  filename : String
  is_dirty : Bool
  saveEnabled : Bool
  recent : RecentFiles
  editor : String
  appName : String
  deriving DecidableEq, Repr

/-- Controller state together with the file system. -/
structure World where
  mw : MW
  fs : List (String × String)
  deriving DecidableEq, Repr

/-- Result of a controller operation: the new state, the port calls made (in
order), and whether the operation returned normally (`ok = false` is an
uncaught Python exception at that point). -/
structure OpResult where
  w : World
  events : List Event
  ok : Bool
  deriving DecidableEq, Repr

/-- `open(path)` for reading: the most recent write to the path, `none` is
`FileNotFoundError`. -/
def fsRead (fs : List (String × String)) (p : String) : Option String :=
  (fs.find? (fun e => e.1 == p)).map (fun e => e.2)

/-- `open(path, 'w')` followed by `file.write(text)`. -/
def fsWrite (fs : List (String × String)) (p text : String) : List (String × String) :=
  (p, text) :: fs

/-- Python truthiness of the `filename` argument of `show_open_dialog`
(default `None`; the empty string is also falsy). -/
def truthy : Option String → Bool
  | none => false
  | some s => s ≠ ""

/-- `os.path.basename` for POSIX-style paths: the part after the last `/`. -/
def basename (p : String) : String :=
  (p.splitOn "/").getLastD ""

/-- `set_filename(self, filename='Untitled')`: store the name and refresh the
window title (`set_window_title` is presentation-only). -/
def set_filename (w : World) (filename : String := "Untitled") : World :=
  { w with mw := { w.mw with filename := filename } }

/-- `set_dirty(self, is_dirty=True)`: no-op when unchanged; otherwise update
the flag, refresh the window title (presentation-only), and when
`self._filename != 'Untitled'` set the Save action's enabled state to
`is_dirty` (`save_action.setDisabled(not is_dirty)`). -/
def set_dirty (w : World) (is_dirty : Bool := true) : World :=
  if w.mw.is_dirty = is_dirty then
    w
  else
    let w1 : World := { w with mw := { w.mw with is_dirty := is_dirty } }
    if w1.mw.filename ≠ "Untitled" then
      { w1 with mw := { w1.mw with saveEnabled := is_dirty } }
    else
      w1

/-- `load_file(self, filename)`: `try: open(filename); set_contents(read())`;
on `FileNotFoundError`: `recent_files.remove_file(filename)`; else:
`set_filename(filename); set_dirty(False); recent_files.add_file(filename)`. -/
def load_file (w : World) (filename : String) : OpResult :=
  match fsRead w.fs filename with
  | none =>
    match remove_file w.mw.recent filename with
    | some rf => ⟨{ w with mw := { w.mw with recent := rf } }, [], true⟩
    | none => ⟨w, [], false⟩
  | some text =>
    let w1 : World := { w with mw := { w.mw with editor := text } }
    let w2 := set_filename w1 filename
    let w3 := set_dirty w2 false
    let w4 : World := { w3 with mw := { w3.mw with recent := add_file w3.mw.recent filename } }
    ⟨w4, [Event.setContents text], true⟩

/-- `save_to_file(self, filename)`: write `get_contents()` to the file, then
`set_filename(filename); set_dirty(False); recent_files.add_file(filename)`. -/
def save_to_file (w : World) (filename : String) : OpResult :=
  let contents := w.mw.editor
  let w1 : World := { w with fs := fsWrite w.fs filename contents }
  let w2 := set_filename w1 filename
  let w3 := set_dirty w2 false
  let w4 : World := { w3 with mw := { w3.mw with recent := add_file w3.mw.recent filename } }
  ⟨w4, [Event.getContents], true⟩

/-- The gate pattern `if not self.is_dirty or request(self, msg):` shared by
`show_new_dialog`, `show_open_dialog` and `request_exit`: when dirty, the
confirmation port is consulted (short-circuit: `request` runs only then) and
the body runs only on a positive answer. `ans` is the reply the port returns. -/
def gated (w : World) (msg : String) (ans : Bool) (body : World → OpResult) : OpResult :=
  if w.mw.is_dirty then
    if ans then
      let r := body w
      ⟨r.w, Event.confirmReq msg ans :: r.events, r.ok⟩
    else
      ⟨w, [Event.confirmReq msg ans], true⟩
  else
    body w

/-- Body of `show_new_dialog`: `run_callback('clear_contents')` (the external
surface is emptied), `set_filename('untitled')`, `set_dirty(is_dirty=False)`. -/
def new_file_body (w : World) : OpResult :=
  let w1 : World := { w with mw := { w.mw with editor := "" } }
  let w2 := set_filename w1 "untitled"
  let w3 := set_dirty w2 false
  ⟨w3, [Event.clearContents], true⟩

/-- `show_new_dialog(self)`. -/
def show_new_dialog (w : World) (ans : Bool) : OpResult :=
  gated w "start a new data file" ans new_file_body

/-- Body of `show_open_dialog`: `if not filename:
self.open_dialog.show_dialog(self.start_path)` (external dialog, no state
change here) `else: self.load_file(filename)`. -/
def open_file_body (filename : Option String) (w : World) : OpResult :=
  if truthy filename then
    load_file w (filename.getD "")
  else
    ⟨w, [Event.showOpenFileDialog], true⟩

/-- `show_open_dialog(self, filename=None)`: compute the message file part
(`op.basename(filename)` when truthy, else `'another data file'`), pass the
gate, then the body. -/
def show_open_dialog (w : World) (filename : Option String) (ans : Bool) : OpResult :=
  let message_file := if truthy filename then basename (filename.getD "") else "another data file"
  gated w ("open <b>" ++ message_file ++ "</b>") ans (open_file_body filename)

/-- `ClassicFileMainWindow.request_exit(self)`: gate on dirty with message
`f'exit {self.app_name}'`, then `super().request_exit()` which terminates the
application. -/
def request_exit (w : World) (ans : Bool) : OpResult :=
  gated w ("exit " ++ w.mw.appName) ans (fun w0 => ⟨w0, [Event.exitApp], true⟩)

/-- `ClassicFileMainWindow.__init__`: `self._filename = None` then
`set_filename()` (default `'Untitled'`), `is_dirty = False`, the Save action
starts disabled (`save_action.setDisabled(True)`), and the
`RecentlyOpenedFiles` instance is built from the settings store
(`load_files_from_settings` at construction). The content-port text and file
system are the external surroundings. -/
def initWorld (appName : String) (settings : Option (List (List String)))
    (editor : String) (fs : List (String × String)) : World :=
  { mw := { filename := "Untitled", is_dirty := false, saveEnabled := false,
            recent := load_files_from_settings { filenames := [], settings := settings },
            editor := editor, appName := appName },
    fs := fs }

/-- `True` exactly for confirmation-port events. -/
def isConfirm : Event → Bool
  | Event.confirmReq _ _ => true
  | _ => false

/-- Number of confirmation-port calls in an event list. -/
def confirmCount (es : List Event) : Nat :=
  (es.filter isConfirm).length

/-- `True` when the first port call of an event list is a confirmation. -/
def headIsConfirm : List Event → Bool
  | Event.confirmReq _ _ :: _ => true
  | _ => false

lemma mem_dedupAux {a : String} : ∀ {l seen : List String},
    a ∈ dedupAux l seen ↔ a ∈ l ∧ a ∉ seen := by
  intro l
  induction l with
  | nil => intro seen; simp [dedupAux]
  | cons x xs ih =>
    intro seen
    by_cases hx : x ∈ seen
    · simp only [dedupAux, if_pos hx, ih, List.mem_cons]
      constructor
      · rintro ⟨h1, h2⟩; exact ⟨Or.inr h1, h2⟩
      · rintro ⟨h1 | h1, h2⟩
        · exact absurd (h1 ▸ hx) h2
        · exact ⟨h1, h2⟩
    · simp only [dedupAux, if_neg hx, List.mem_cons, ih]
      by_cases hax : a = x
      · subst hax; simp [hx]
      · simp [hax]

lemma nodup_dedupAux : ∀ (l seen : List String), (dedupAux l seen).Nodup := by
  intro l
  induction l with
  | nil => intro seen; simp [dedupAux]
  | cons x xs ih =>
    intro seen
    by_cases hx : x ∈ seen
    · simpa [dedupAux, if_pos hx] using ih seen
    · simp only [dedupAux, if_neg hx, List.nodup_cons]
      refine ⟨fun hmem => ?_, ih (x :: seen)⟩
      exact (mem_dedupAux.1 hmem).2 (List.mem_cons_self x seen)

lemma length_dedupAux_le : ∀ (l seen : List String),
    (dedupAux l seen).length ≤ l.length := by
  intro l
  induction l with
  | nil => intro seen; simp [dedupAux]
  | cons x xs ih =>
    intro seen
    by_cases hx : x ∈ seen
    · simp only [dedupAux, if_pos hx, List.length_cons]
      exact Nat.le_succ_of_le (ih seen)
    · simp only [dedupAux, if_neg hx, List.length_cons]
      exact Nat.succ_le_succ (ih (x :: seen))

lemma dedupAux_eq_filter {l : List String} (h : l.Nodup) :
    ∀ seen : List String, dedupAux l seen = l.filter (fun a => decide (a ∉ seen)) := by
  induction l with
  | nil => intro seen; simp [dedupAux]
  | cons x xs ih =>
    intro seen
    obtain ⟨hx_not, hxs⟩ := List.nodup_cons.1 h
    have hcong : ∀ seen1 : List String, x ∉ seen1 →
        List.filter (fun a => decide (a ∉ x :: seen1)) xs
          = List.filter (fun a => decide (a ∉ seen1)) xs := by
      intro seen1 _
      refine List.filter_congr fun a ha => ?_
      have hax : a ≠ x := fun he => hx_not (he ▸ ha)
      simp [List.mem_cons, hax]
    by_cases hx : x ∈ seen
    · simp [dedupAux, hx, List.filter_cons, ih hxs seen]
    · simp only [dedupAux, if_neg hx, ih hxs (x :: seen), hcong seen hx, List.filter_cons]
      simp [hx]

lemma dedupKeepFirst_eq_self {l : List String} (h : l.Nodup) : dedupKeepFirst l = l := by
  rw [dedupKeepFirst, dedupAux_eq_filter h]
  simp

lemma dedupKeepFirst_cons_erase {l : List String} {p : String}
    (h : l.Nodup) : dedupKeepFirst (p :: l) = p :: l.erase p := by
  rw [dedupKeepFirst]
  show (if p ∈ ([] : List String) then dedupAux l [] else p :: dedupAux l [p]) = _
  rw [if_neg (List.not_mem_nil p), dedupAux_eq_filter h [p], h.erase_eq_filter]
  refine congrArg _ (List.filter_congr fun a _ => ?_)
  simp [List.mem_singleton, bne, Bool.beq_eq_decide_eq]

lemma add_file_length_le (rf : RecentFiles) (p : String) :
    (add_file rf p).filenames.length ≤ max_no_files := by
  simp only [add_file, dedupKeepFirst]
  exact le_trans (length_dedupAux_le _ _) (List.length_take_le _ _)

lemma add_file_nodup (rf : RecentFiles) (p : String) :
    (add_file rf p).filenames.Nodup := by
  simp only [add_file, dedupKeepFirst]
  exact nodup_dedupAux _ _

lemma add_file_seq_take_of_nodup (s : Option (List (List String))) :
    ∀ (ps : List String), ps.Nodup →
      (add_file_seq ⟨[], s⟩ ps).filenames = ps.reverse.take max_no_files := by
  intro ps
  induction ps using List.reverseRecOn with
  | nil => intro _; rfl
  | append_singleton qs q ih =>
    intro hnd
    have hq_not : q ∉ qs := by
      have := List.nodup_append.1 hnd
      intro hmem
      exact this.2.2 hmem (List.mem_singleton_self q)
    have hqs : qs.Nodup := (List.nodup_append.1 hnd).1
    have hfold : add_file_seq ⟨[], s⟩ (qs ++ [q]) = add_file (add_file_seq ⟨[], s⟩ qs) q := by
      simp [add_file_seq, List.foldl_append]
    rw [hfold, add_file]
    have hL : (add_file_seq ⟨[], s⟩ qs).filenames = qs.reverse.take max_no_files := ih hqs
    rw [hL]
    have htake : (q :: qs.reverse.take max_no_files).take max_no_files
        = q :: qs.reverse.take 9 := by
      show (q :: qs.reverse.take max_no_files).take (9 + 1) = _
      rw [List.take_succ_cons, List.take_take]
      rfl
    have hqrev : q ∉ qs.reverse.take 9 := fun hmem =>
      hq_not (List.mem_reverse.1 (List.take_subset _ _ hmem))
    have hnodup : (q :: qs.reverse.take 9).Nodup :=
      List.nodup_cons.2 ⟨hqrev, (List.take_sublist _ _).nodup (List.nodup_reverse.2 hqs)⟩
    simp only [htake, dedupKeepFirst_eq_self hnodup]
    rw [List.reverse_append, List.reverse_singleton, List.singleton_append]
    show _ = (q :: qs.reverse).take (9 + 1)
    rw [List.take_succ_cons]

@[simp]
lemma set_filename_mw (w : World) (f : String) :
    (set_filename w f).mw = { w.mw with filename := f } := rfl

@[simp]
lemma set_filename_fs (w : World) (f : String) : (set_filename w f).fs = w.fs := rfl

@[simp]
lemma set_dirty_is_dirty (w : World) (b : Bool) : (set_dirty w b).mw.is_dirty = b := by
  by_cases h : w.mw.is_dirty = b <;> simp [set_dirty, h] <;> split <;> simp

@[simp]
lemma set_dirty_editor (w : World) (b : Bool) : (set_dirty w b).mw.editor = w.mw.editor := by
  by_cases h : w.mw.is_dirty = b <;> simp [set_dirty, h] <;> split <;> simp

@[simp]
lemma set_dirty_filename (w : World) (b : Bool) :
    (set_dirty w b).mw.filename = w.mw.filename := by
  by_cases h : w.mw.is_dirty = b <;> simp [set_dirty, h] <;> split <;> simp

@[simp]
lemma set_dirty_recent (w : World) (b : Bool) :
    (set_dirty w b).mw.recent = w.mw.recent := by
  by_cases h : w.mw.is_dirty = b <;> simp [set_dirty, h] <;> split <;> simp

@[simp]
lemma set_dirty_appName (w : World) (b : Bool) :
    (set_dirty w b).mw.appName = w.mw.appName := by
  by_cases h : w.mw.is_dirty = b <;> simp [set_dirty, h] <;> split <;> simp

@[simp]
lemma set_dirty_fs (w : World) (b : Bool) : (set_dirty w b).fs = w.fs := by
  by_cases h : w.mw.is_dirty = b <;> simp [set_dirty, h] <;> split <;> simp

lemma gated_not_dirty {w : World} (h : w.mw.is_dirty = false)
    (msg : String) (ans : Bool) (body : World → OpResult) :
    gated w msg ans body = body w := by
  simp [gated, h]

lemma gated_dirty_declined {w : World} (h : w.mw.is_dirty = true)
    (msg : String) (body : World → OpResult) :
    gated w msg false body = ⟨w, [Event.confirmReq msg false], true⟩ := by
  simp [gated, h]

lemma gated_dirty_accepted {w : World} (h : w.mw.is_dirty = true)
    (msg : String) (body : World → OpResult) :
    gated w msg true body
      = ⟨(body w).w, Event.confirmReq msg true :: (body w).events, (body w).ok⟩ := by
  simp [gated, h]

lemma load_file_confirmCount (w : World) (f : String) :
    confirmCount (load_file w f).events = 0 := by
  rcases h : fsRead w.fs f with _ | text
  · rcases hr : remove_file w.mw.recent f with _ | rf <;>
      simp [load_file, h, hr, confirmCount]
  · simp [load_file, h, confirmCount, isConfirm]

lemma open_file_body_confirmCount (fn : Option String) (w : World) :
    confirmCount (open_file_body fn w).events = 0 := by
  by_cases h : truthy fn = true
  · simp [open_file_body, h, load_file_confirmCount]
  · simp [open_file_body, h, confirmCount, isConfirm]

lemma fsRead_fsWrite_self (fs : List (String × String)) (p text : String) :
    fsRead (fsWrite fs p text) p = some text := by
  simp [fsRead, fsWrite, List.find?]

/-- Claim C2, counterexample. The claim states that for EVERY registry list
state already containing `p`, `add(p)` moves `p` to the front without changing
the list's length and without evicting another entry. At a full list of 10
distinct entries whose first entry is `p`, `add_file` first inserts `p`,
then truncates (dropping the oldest entry `"i"`), and only then deduplicates,
so the length drops from 10 to 9 and `"i"` is evicted. -/
theorem add_file_full_list_cex :
    "p" ∈ (RecentFiles.mk ["p", "a", "b", "c", "d", "e", "f", "g", "h", "i"] none).filenames
    ∧ (add_file (RecentFiles.mk ["p", "a", "b", "c", "d", "e", "f", "g", "h", "i"] none)
        "p").filenames.length
      ≠ (RecentFiles.mk ["p", "a", "b", "c", "d", "e", "f", "g", "h", "i"]
          none).filenames.length
    ∧ "i" ∉ (add_file (RecentFiles.mk ["p", "a", "b", "c", "d", "e", "f", "g", "h", "i"]
        none) "p").filenames := by
  decide

/-- Claim C2, amended. For a duplicate-free registry list state of length at
most `max_no_files` (10, the shape of every reachable registry state) that
already contains `p`, if the list is below capacity or `p` is its last
(oldest) entry, then `add_file p` yields `p` followed by the previous list
with the prior occurrence of `p` erased: `p` moves to the front, the length
is unchanged, and no other entry is evicted. When the list is at capacity and
`p` sits before the last position, the pre-dedup truncation also evicts the
last (oldest) entry and the length shrinks by one, as the counterexample
shows at a concrete such state. -/
theorem add_file_present_moves_front (rf : RecentFiles) (p : String)
    (hnd : rf.filenames.Nodup) (hp : p ∈ rf.filenames)
    (hlen : rf.filenames.length ≤ max_no_files)
    (hcase : rf.filenames.length < max_no_files ∨ rf.filenames.getLast? = some p) :
    (add_file rf p).filenames = p :: rf.filenames.erase p
    ∧ (add_file rf p).filenames.length = rf.filenames.length
    ∧ (add_file rf p).filenames.head? = some p := by
  have hpos : 0 < rf.filenames.length := List.length_pos_of_mem hp
  have hmain : (add_file rf p).filenames = p :: rf.filenames.erase p := by
    by_cases hlt : rf.filenames.length < max_no_files
    · have htake : (p :: rf.filenames).take max_no_files = p :: rf.filenames :=
        List.take_of_length_le (by simpa [List.length_cons] using hlt)
      simp only [add_file, htake]
      exact dedupKeepFirst_cons_erase hnd
    · have hlast : rf.filenames.getLast? = some p := hcase.resolve_left hlt
      have hne : rf.filenames ≠ [] := List.ne_nil_of_length_pos hpos
      have hlen10 : rf.filenames.length = max_no_files :=
        le_antisymm hlen (Nat.le_of_not_lt hlt)
      have hgl : rf.filenames.getLast hne = p := by
        have h2 := List.getLast?_eq_getLast rf.filenames hne
        rw [hlast] at h2
        exact (Option.some_inj.1 h2).symm
      have hsplit : rf.filenames.take 9 ++ [p] = rf.filenames := by
        have h1 := List.dropLast_concat_getLast hne
        rw [hgl, List.dropLast_eq_take, hlen10] at h1
        exact h1
      have hnotmem : p ∉ rf.filenames.take 9 := by
        intro hmem
        have hnd2 : (rf.filenames.take 9 ++ [p]).Nodup := by
          rw [hsplit]
          exact hnd
        exact (List.nodup_append.1 hnd2).2.2 hmem (List.mem_singleton_self p)
      have herase : rf.filenames.erase p = rf.filenames.take 9 := by
        conv_lhs => rw [← hsplit]
        rw [List.erase_append_right _ hnotmem]
        simp
      have htake : (p :: rf.filenames).take max_no_files = p :: rf.filenames.take 9 := by
        show (p :: rf.filenames).take (9 + 1) = _
        rw [List.take_succ_cons]
      have hnodup9 : (p :: rf.filenames.take 9).Nodup :=
        List.nodup_cons.2 ⟨hnotmem, (List.take_sublist _ _).nodup hnd⟩
      simp only [add_file, htake]
      rw [dedupKeepFirst_eq_self hnodup9, herase]
  refine ⟨hmain, ?_, by simp [hmain]⟩
  rw [hmain]
  simp only [List.length_cons, List.length_erase_of_mem hp]
  omega

/-- Claim C2, witness for the amended theorem, exercising both hypotheses
cases: a below-capacity state containing the path, and a full (10-entry)
state whose last entry is the path. -/
theorem add_file_present_moves_front_witness :
    ((add_file (RecentFiles.mk ["a", "b", "p"] none) "p").filenames
      = "p" :: (["a", "b", "p"].erase "p")
    ∧ (add_file (RecentFiles.mk ["a", "b", "p"] none) "p").filenames.length
      = (RecentFiles.mk ["a", "b", "p"] none).filenames.length
    ∧ (add_file (RecentFiles.mk ["a", "b", "p"] none) "p").filenames.head? = some "p")
    ∧ ((add_file (RecentFiles.mk ["a", "b", "c", "d", "e", "f", "g", "h", "i", "p"] none)
        "p").filenames
      = "p" :: (["a", "b", "c", "d", "e", "f", "g", "h", "i", "p"].erase "p")
    ∧ (add_file (RecentFiles.mk ["a", "b", "c", "d", "e", "f", "g", "h", "i", "p"] none)
        "p").filenames.length
      = (RecentFiles.mk ["a", "b", "c", "d", "e", "f", "g", "h", "i", "p"]
          none).filenames.length) :=
  ⟨add_file_present_moves_front (RecentFiles.mk ["a", "b", "p"] none) "p"
      (by decide) (by decide) (by decide) (Or.inl (by decide)),
    (add_file_present_moves_front
      (RecentFiles.mk ["a", "b", "c", "d", "e", "f", "g", "h", "i", "p"] none) "p"
      (by decide) (by decide) (by decide) (Or.inr (by decide))).1,
    (add_file_present_moves_front
      (RecentFiles.mk ["a", "b", "c", "d", "e", "f", "g", "h", "i", "p"] none) "p"
      (by decide) (by decide) (by decide) (Or.inr (by decide))).2.1⟩

/-- Claim C3. Starting from an empty registry, after any sequence of
`add_file` calls the list has length at most `max_no_files` (10) and contains
no duplicates; moreover for a sequence of pairwise-distinct added paths the
resulting list is exactly the most recent 10 of them, most recent first
(`take 10` of the reversed call sequence), so the oldest entries beyond
capacity are the ones dropped. -/
theorem add_file_seq_bounded_nodup_mru (ps : List String)
    (s : Option (List (List String))) :
    ((add_file_seq ⟨[], s⟩ ps).filenames.length ≤ max_no_files
      ∧ (add_file_seq ⟨[], s⟩ ps).filenames.Nodup)
    ∧ (ps.Nodup → (add_file_seq ⟨[], s⟩ ps).filenames = ps.reverse.take max_no_files) := by
  refine ⟨?_, add_file_seq_take_of_nodup s ps⟩
  rcases List.eq_nil_or_concat ps with rfl | ⟨qs, q, rfl⟩
  · exact ⟨by simp [add_file_seq, max_no_files], by simp [add_file_seq]⟩
  · have hfold : add_file_seq ⟨[], s⟩ (qs ++ [q]) = add_file (add_file_seq ⟨[], s⟩ qs) q := by
      simp [add_file_seq, List.foldl_append]
    rw [List.concat_eq_append, hfold]
    exact ⟨add_file_length_le _ _, add_file_nodup _ _⟩

/-- Claim C3, witness: the amended-nothing hypotheses discharged at the
spec's example sequence. -/
theorem add_file_seq_bounded_nodup_mru_witness :
    ((add_file_seq ⟨[], none⟩ ["/a", "/b"]).filenames.length ≤ max_no_files
      ∧ (add_file_seq ⟨[], none⟩ ["/a", "/b"]).filenames.Nodup)
    ∧ (add_file_seq ⟨[], none⟩ ["/a", "/b"]).filenames
      = ["/a", "/b"].reverse.take max_no_files :=
  ⟨(add_file_seq_bounded_nodup_mru ["/a", "/b"] none).1,
    (add_file_seq_bounded_nodup_mru ["/a", "/b"] none).2 (by decide)⟩

/-- Claim C4, counterexample. The claim states the persisted store entry
reflects the in-memory list after every mutating operation, including
`remove`. But `remove_file` only mutates `self.filenames` and never calls
`settings.setValue`: after `add_file "a"` (store holds `[["a"]]`) followed by
`remove_file "a"`, the list is `[]` while the store still holds `[["a"]]`,
not the wrapper `[[]]` of the current list. -/
theorem remove_file_not_persisted_cex :
    remove_file (add_file (RecentFiles.mk [] none) "a") "a"
      = some (RecentFiles.mk [] (some [["a"]]))
    ∧ (some [["a"]] : Option (List (List String))) ≠ some [[]] := by
  decide

/-- Claim C4, amended. `add_file` writes the updated list (in its one-element
wrapper) back to the store, and `clear_settings` removes the store entry and
empties the list; but `remove_file` updates only the in-memory list (erasing
the first occurrence) and leaves the store entry unchanged. -/
theorem registry_persistence_amended (rf : RecentFiles) (p : String) :
    (add_file rf p).settings = some [(add_file rf p).filenames]
    ∧ (clear_settings rf).settings = none
    ∧ (clear_settings rf).filenames = []
    ∧ (∀ rf', remove_file rf p = some rf' →
        rf'.settings = rf.settings ∧ rf'.filenames = rf.filenames.erase p) := by
  refine ⟨rfl, rfl, rfl, fun rf' h => ?_⟩
  by_cases hp : p ∈ rf.filenames
  · rw [remove_file, if_pos hp] at h
    cases h
    exact ⟨rfl, rfl⟩
  · rw [remove_file, if_neg hp] at h
    cases h

/-- Claim C4, witness for the amended theorem at a concrete registry state. -/
theorem registry_persistence_amended_witness :
    (add_file (RecentFiles.mk ["a"] (some [["a"]])) "b").settings
      = some [(add_file (RecentFiles.mk ["a"] (some [["a"]])) "b").filenames]
    ∧ (clear_settings (RecentFiles.mk ["a"] (some [["a"]]))).settings = none
    ∧ (clear_settings (RecentFiles.mk ["a"] (some [["a"]]))).filenames = []
    ∧ (RecentFiles.mk [] (some [["a"]])).settings
        = (RecentFiles.mk ["a"] (some [["a"]])).settings
    ∧ (RecentFiles.mk [] (some [["a"]])).filenames
        = (RecentFiles.mk ["a"] (some [["a"]])).filenames.erase "a" := by
  refine ⟨(registry_persistence_amended (RecentFiles.mk ["a"] (some [["a"]])) "b").1,
    (registry_persistence_amended (RecentFiles.mk ["a"] (some [["a"]])) "b").2.1,
    (registry_persistence_amended (RecentFiles.mk ["a"] (some [["a"]])) "b").2.2.1,
    ?_⟩
  exact (registry_persistence_amended (RecentFiles.mk ["a"] (some [["a"]])) "a").2.2.2
    (RecentFiles.mk [] (some [["a"]])) (by decide)

/-- Claim C10. Loading the registry list — at construction and when
`clear_settings` reloads — truncates the stored sequence to its first
`max_no_files` (10) entries but performs no deduplication: for any stored
wrapper value the resulting list is exactly `take 10` of the stored sequence,
and for the concrete store contents `[["p", "p", "q"]]` the resulting list
contains `"p"` twice. The no-duplicate shape is established only by
`add_file`. -/
theorem load_files_truncate_no_dedup :
    (∀ (rf : RecentFiles) (file_list : List String),
      (load_files rf file_list).filenames = file_list.take max_no_files)
    ∧ (∀ (rf : RecentFiles) (stored : List String),
        (load_files_from_settings { rf with settings := some [stored] }).filenames
          = stored.take max_no_files)
    ∧ (load_files_from_settings (RecentFiles.mk [] (some [["p", "p", "q"]]))).filenames.count
        "p" = 2
    ∧ ¬ (load_files_from_settings (RecentFiles.mk [] (some [["p", "p", "q"]]))).filenames.Nodup := by
  refine ⟨fun rf fl => rfl, fun rf stored => rfl, by decide, by decide⟩

/-- Claim C1. In every dirty controller state, each of `show_new_dialog`
(new), `show_open_dialog` (open, with any filename argument) and
`request_exit` calls the confirmation port exactly once, and that call is the
first external-port call the operation makes (so it precedes every state
mutation and every content-port call); when the port answers `false`, the
operation leaves the whole state (filename, dirty flag, registry, file
system, editing surface) unchanged and makes no port call other than the
confirmation — in particular the content port is untouched. -/
theorem dirty_gating_confirms_once (w : World) (ans : Bool) (fn : Option String)
    (hd : w.mw.is_dirty = true) :
    (confirmCount (show_new_dialog w ans).events = 1
      ∧ headIsConfirm (show_new_dialog w ans).events = true
      ∧ confirmCount (show_open_dialog w fn ans).events = 1
      ∧ headIsConfirm (show_open_dialog w fn ans).events = true
      ∧ confirmCount (request_exit w ans).events = 1
      ∧ headIsConfirm (request_exit w ans).events = true)
    ∧ (ans = false →
        (show_new_dialog w ans).w = w
        ∧ (show_new_dialog w ans).events
            = [Event.confirmReq "start a new data file" false]
        ∧ (show_open_dialog w fn ans).w = w
        ∧ (∀ e ∈ (show_open_dialog w fn ans).events, isConfirm e = true)
        ∧ (request_exit w ans).w = w
        ∧ (request_exit w ans).events = [Event.confirmReq ("exit " ++ w.mw.appName) false]) := by
  cases ans with
  | false =>
    rw [show_new_dialog, gated_dirty_declined hd, request_exit, gated_dirty_declined hd,
      show_open_dialog]
    rw [gated_dirty_declined hd]
    refine ⟨⟨by simp [confirmCount, isConfirm], rfl, by simp [confirmCount, isConfirm], rfl,
      by simp [confirmCount, isConfirm], rfl⟩, fun _ => ?_⟩
    exact ⟨rfl, rfl, rfl, by simp [isConfirm], rfl, rfl⟩
  | true =>
    rw [show_new_dialog, gated_dirty_accepted hd, request_exit, gated_dirty_accepted hd,
      show_open_dialog]
    rw [gated_dirty_accepted hd]
    refine ⟨⟨?_, rfl, ?_, rfl, ?_, rfl⟩, fun hfalse => by cases hfalse⟩
    · simp [new_file_body, confirmCount, isConfirm]
    · simp only [confirmCount, List.filter_cons, isConfirm, List.length_cons]
      have h0 := open_file_body_confirmCount fn w
      rw [confirmCount] at h0
      simp [h0]
    · simp [confirmCount, isConfirm]

/-- Claim C1, witness at a concrete dirty state with the port declining. -/
theorem dirty_gating_confirms_once_witness :
    confirmCount (show_new_dialog
      (World.mk (MW.mk "f" true true (RecentFiles.mk [] none) "x" "app") []) false).events = 1
    ∧ (show_new_dialog
        (World.mk (MW.mk "f" true true (RecentFiles.mk [] none) "x" "app") []) false).w
      = World.mk (MW.mk "f" true true (RecentFiles.mk [] none) "x" "app") [] :=
  ⟨(dirty_gating_confirms_once
      (World.mk (MW.mk "f" true true (RecentFiles.mk [] none) "x" "app") [])
      false (some "/a/b") rfl).1.1,
    ((dirty_gating_confirms_once
      (World.mk (MW.mk "f" true true (RecentFiles.mk [] none) "x" "app") [])
      false (some "/a/b") rfl).2 rfl).1⟩

/-- Claim C5, counterexample. The claim quantifies over every state whose
recent-files list contains `p`. A list can contain `p` twice (such states are
reachable: the registry loads the stored sequence without deduplication, see
the C10 theorem). Python's `list.remove` deletes only the first occurrence,
so after a failed `load_file p` the path is still present. -/
theorem load_file_duplicate_still_present_cex :
    "p" ∈ (initWorld "app" (some [["p", "p"]]) "" []).mw.recent.filenames
    ∧ fsRead (initWorld "app" (some [["p", "p"]]) "" []).fs "p" = none
    ∧ (load_file (initWorld "app" (some [["p", "p"]]) "" []) "p").ok = true
    ∧ "p" ∈ (load_file (initWorld "app" (some [["p", "p"]]) "" [])
        "p").w.mw.recent.filenames := by
  decide

/-- Claim C5, amended. For every state whose recent-files list contains `p`
exactly once (which holds in particular for every list built by `add_file`,
whose outputs are duplicate-free), if reading `p` fails with file-not-found
then `load_file p` returns normally, `p` is gone from the list, the
document's filename and dirty flag and the editing surface are unchanged, and
no content-port call is made (the event list is empty — `set_contents` is
never reached). In general only the first occurrence of `p` is removed. -/
theorem load_file_not_found_recovery (w : World) (p : String)
    (hc : w.mw.recent.filenames.count p = 1) (hfs : fsRead w.fs p = none) :
    (load_file w p).ok = true
    ∧ (load_file w p).w.mw.filename = w.mw.filename
    ∧ (load_file w p).w.mw.is_dirty = w.mw.is_dirty
    ∧ (load_file w p).w.mw.editor = w.mw.editor
    ∧ (load_file w p).events = []
    ∧ p ∉ (load_file w p).w.mw.recent.filenames := by
  have hp : p ∈ w.mw.recent.filenames := List.count_pos_iff.1 (by omega)
  have hrm : remove_file w.mw.recent p
      = some { w.mw.recent with filenames := w.mw.recent.filenames.erase p } := by
    rw [remove_file, if_pos hp]
  simp only [load_file, hfs, hrm, eq_self_iff_true, true_and]
  have hcnt : (w.mw.recent.filenames.erase p).count p = 0 := by
    rw [List.count_erase_self]
    omega
  exact List.count_eq_zero.1 hcnt

/-- Claim C5, witness at a concrete one-occurrence state. -/
theorem load_file_not_found_recovery_witness :
    (load_file (World.mk (MW.mk "f" true true (RecentFiles.mk ["p", "q"] none) "x" "app") [])
      "p").ok = true
    ∧ "p" ∉ (load_file
        (World.mk (MW.mk "f" true true (RecentFiles.mk ["p", "q"] none) "x" "app") [])
        "p").w.mw.recent.filenames :=
  ⟨(load_file_not_found_recovery
      (World.mk (MW.mk "f" true true (RecentFiles.mk ["p", "q"] none) "x" "app") [])
      "p" (by decide) (by decide)).1,
    (load_file_not_found_recovery
      (World.mk (MW.mk "f" true true (RecentFiles.mk ["p", "q"] none) "x" "app") [])
      "p" (by decide) (by decide)).2.2.2.2.2⟩

/-- Claim C6. The code has no single "untitled" sentinel: at startup
`set_filename()` stores `'Untitled'` (capital U) and `set_dirty` compares
against `'Untitled'`, but `show_new_dialog` stores `'untitled'` (lower-case).
At startup `set_dirty True` therefore leaves the Save action's enabled state
unchanged as claimed, but after New the filename `'untitled'` differs from
the compared string `'Untitled'`, so `set_dirty True` enables the Save action
— contradicting the claim that the enabled state is untouched while the
document is untitled. This evaluates the embedded code at that failing
input. -/
theorem untitled_sentinel_mismatch :
    (initWorld "app" none "" []).mw.filename = "Untitled"
    ∧ (initWorld "app" none "" []).mw.saveEnabled = false
    ∧ (set_dirty (initWorld "app" none "" []) true).mw.saveEnabled = false
    ∧ (show_new_dialog (initWorld "app" none "" []) true).w.mw.filename = "untitled"
    ∧ (show_new_dialog (initWorld "app" none "" []) true).w.mw.saveEnabled = false
    ∧ (set_dirty (show_new_dialog (initWorld "app" none "" []) true).w true).mw.saveEnabled
      = true := by
  decide

/-- Claim C7. With the configured parameters (`max_length = 40`,
`remain_start = 10`, `remain_end = 25`), `shorten_name` returns a path of
length at most 40 unchanged, and for a longer path returns exactly the first
10 characters, then `" ... "`, then the last 25 characters. -/
theorem shorten_name_spec (p : List Char) :
    (p.length ≤ max_length → shorten_name p max_length remain_start remain_end = p)
    ∧ (max_length < p.length →
        shorten_name p max_length remain_start remain_end
          = p.take remain_start ++ " ... ".toList ++ (p.reverse.take remain_end).reverse) := by
  constructor
  · intro h
    rw [shorten_name, if_neg (Nat.not_lt.2 h)]
  · intro h
    rw [shorten_name, if_pos h, pySliceLast, if_neg (by decide : ¬ (remain_end = 0)),
      List.take_reverse, List.reverse_reverse]

/-- Claim C7, witness at a short and a long concrete path. -/
theorem shorten_name_spec_witness :
    shorten_name "short".toList max_length remain_start remain_end = "short".toList
    ∧ shorten_name "/aaaaaaaaa/bbbbbbbbb/ccccccccc/ddddddddd/eee.txt".toList
        max_length remain_start remain_end
      = "/aaaaaaaaa/bbbbbbbbb/ccccccccc/ddddddddd/eee.txt".toList.take remain_start
        ++ " ... ".toList
        ++ ("/aaaaaaaaa/bbbbbbbbb/ccccccccc/ddddddddd/eee.txt".toList.reverse.take
            remain_end).reverse :=
  ⟨(shorten_name_spec _).1 (by decide), (shorten_name_spec _).2 (by decide)⟩

/-- Claim C8, counterexample. The spec's example output is wrong: the first
10 characters of the path are `"/home/user"` (the example shows only 9) and
the last 25 are `"long/path/to/document.txt"` (the example shows only 17), so
`shorten_name` does not return `"/home/use ... h/to/document.txt"`. -/
theorem shorten_name_example_cex :
    shorten_name "/home/user/projects/very/long/path/to/document.txt".toList 40 10 25
      ≠ "/home/use ... h/to/document.txt".toList := by
  decide

/-- Claim C8, amended. On the spec's 50-character example path,
`shorten_name` with parameters 40/10/25 returns exactly
`"/home/user ... long/path/to/document.txt"` (first 10 characters, the
separator, last 25 characters). -/
theorem shorten_name_example_amended :
    shorten_name "/home/user/projects/very/long/path/to/document.txt".toList 40 10 25
      = "/home/user ... long/path/to/document.txt".toList := by
  decide

/-- Claim C9. Saving the current content to `p` and then opening `p` (with no
intervening file-system change, which the sequential composition guarantees)
restores the editing surface to exactly the saved content via a single
`set_contents` call and leaves the dirty flag false. The path must be
non-empty: Python's `if filename:` in `show_open_dialog` treats `""` as "no
filename given" (and `open('', 'w')` could not have succeeded anyway). -/
theorem save_open_round_trip (w : World) (p : String) (ans : Bool) (hp : p ≠ "") :
    (show_open_dialog (save_to_file w p).w (some p) ans).ok = true
    ∧ (show_open_dialog (save_to_file w p).w (some p) ans).w.mw.editor = w.mw.editor
    ∧ (show_open_dialog (save_to_file w p).w (some p) ans).w.mw.is_dirty = false
    ∧ (show_open_dialog (save_to_file w p).w (some p) ans).events
      = [Event.setContents w.mw.editor] := by
  have hdirty : (save_to_file w p).w.mw.is_dirty = false := by
    simp [save_to_file]
  have htruthy : truthy (some p) = true := by
    simp [truthy, hp]
  have hfs : (save_to_file w p).w.fs = fsWrite w.fs p w.mw.editor := by
    simp [save_to_file]
  have hread : fsRead (save_to_file w p).w.fs p = some w.mw.editor := by
    rw [hfs]
    exact fsRead_fsWrite_self w.fs p w.mw.editor
  rw [show_open_dialog, gated_not_dirty hdirty, open_file_body, if_pos htruthy,
    Option.getD_some]
  simp only [load_file, hread]
  simp

/-- Claim C9, witness at a concrete dirty document. -/
theorem save_open_round_trip_witness :
    (show_open_dialog
      (save_to_file (World.mk (MW.mk "f" true true (RecentFiles.mk [] none) "hello" "app") [])
        "/tmp/x").w
      (some "/tmp/x") true).ok = true
    ∧ (show_open_dialog
        (save_to_file (World.mk (MW.mk "f" true true (RecentFiles.mk [] none) "hello" "app") [])
          "/tmp/x").w
        (some "/tmp/x") true).w.mw.editor
      = (World.mk (MW.mk "f" true true (RecentFiles.mk [] none) "hello" "app") []).mw.editor
    ∧ (show_open_dialog
        (save_to_file (World.mk (MW.mk "f" true true (RecentFiles.mk [] none) "hello" "app") [])
          "/tmp/x").w
        (some "/tmp/x") true).w.mw.is_dirty = false :=
  ⟨(save_open_round_trip
      (World.mk (MW.mk "f" true true (RecentFiles.mk [] none) "hello" "app") [])
      "/tmp/x" true (by decide)).1,
    (save_open_round_trip
      (World.mk (MW.mk "f" true true (RecentFiles.mk [] none) "hello" "app") [])
      "/tmp/x" true (by decide)).2.1,
    (save_open_round_trip
      (World.mk (MW.mk "f" true true (RecentFiles.mk [] none) "hello" "app") [])
      "/tmp/x" true (by decide)).2.2.1⟩

end Cps
